import Mathlib

/-!
Verification of the UserAssist registry parser (`UserAssistParser.py`).

The development shallowly embeds the pure core of the program:

* `convert_filetime` — the Windows FILETIME to calendar-string conversion
  (`convert_filetime` in the source).  The source computes
  `datetime.utcfromtimestamp((ft - EPOCH_AS_FILETIME) / HUNDREDS_OF_NANOSECONDS)`
  and formats it with `strftime`.  The embedding idealises the IEEE-754
  division as exact and models `utcfromtimestamp`, which rounds its
  fractional argument to the nearest microsecond (ties to even) before
  truncating the microseconds away in the `%S` format.  Byte-exact
  double-precision artefacts (below one microsecond for realistic inputs)
  are not modelled.  The `datetime` range check (years 1 to 9999) becomes
  an explicit bound; an out-of-range value is an `Except.error`, matching
  the `OverflowError` the library raises.
* `raw_data_parse` — `raw_data_parser` in the source: the length dispatch
  on 16/72-byte payloads, little-endian field extraction, the minus-5
  run-count adjustment, the `str(timedelta(...)).split('.')[0]` focus-time
  formatting and the FILETIME conversion of the last-executed field.
* `rot13`, `firstSeg`, `pythonReplace`, `resolve_guid` — the name
  de-obfuscation and known-folder substitution (`resolve_guid` plus the
  `codecs.encode(value.name(), 'rot-13')` call site).
* `processValues`, `write_output`, `get_key`, `mainFlow` — the per-value
  loop of `get_key` and the CSV row construction of `write_output`
  (the written file is modelled as the list of its rows).

Payload bytes are lists of `Nat`; machine words are combined explicitly
from bytes, exactly as `struct.unpack("<I", ...)` / `struct.unpack("<Q", ...)`
do on the checked-length slices.
-/

set_option maxRecDepth 100000

/-- Decimal digit character: `Char.ofNat (48 + d % 10)`.  Used to spell the
zero-padded fields produced by `strftime` and `str(timedelta)`. -/
def digitChar (d : Nat) : Char := Char.ofNat (48 + d % 10)

/-- Two-digit zero-padded decimal rendering (the `%02d` / `%m` / `%d` /
`%H` / `%M` / `%S` format for values below 100). -/
def pad2 (n : Nat) : String := ⟨[digitChar (n / 10), digitChar n]⟩

/-- Four-digit decimal rendering of a year (the `%Y` format; every year
reachable from a 64-bit FILETIME in `datetime` range has four digits). -/
def pad4 (n : Nat) : String := ⟨[digitChar (n / 1000), digitChar (n / 100), digitChar (n / 10), digitChar n]⟩

/-- Gregorian leap-year predicate, as in the proleptic calendar used by
`datetime.utcfromtimestamp`. -/
def isLeap (y : Nat) : Bool := decide (y % 4 = 0 ∧ (y % 100 ≠ 0 ∨ y % 400 = 0))

/-- Number of days of a Gregorian year. -/
def daysInYear (y : Nat) : Nat := if isLeap y then 366 else 365

/-- Number of days of month `m` (1-based) in a year with leap flag `leap`. -/
def monthLen (leap : Bool) (m : Nat) : Nat :=
  if m = 2 then (if leap then 29 else 28)
  else if m = 4 ∨ m = 6 ∨ m = 9 ∨ m = 11 then 30
  else 31

/-- Fuel-bounded chunk consumption: starting at index `i` with `d` units
left, repeatedly subtract `len i` while it fits, returning the final index
and remainder.  Instantiated with `daysInYear` (years of a day count) and
`monthLen` (months of a day-of-year). -/
def chunkLoop (len : Nat → Nat) : Nat → Nat → Nat → Nat × Nat
  | 0, i, d => (i, d)
  | fuel + 1, i, d => if d < len i then (i, d) else chunkLoop len fuel (i + 1) (d - len i)

/-- Sum of `len` over the `n` indices starting at `i`. -/
def sumLen (len : Nat → Nat) : Nat → Nat → Nat
  | _, 0 => 0
  | i, n + 1 => len i + sumLen len (i + 1) n

/-- The fixed `%Y-%m-%d %H:%M:%S (UTC)` layout of the produced timestamp. -/
def dateString (y mo d h mi s : Nat) : String :=
  pad4 y ++ "-" ++ pad2 mo ++ "-" ++ pad2 d ++ " " ++ pad2 h ++ ":" ++ pad2 mi ++ ":" ++ pad2 s ++ " (UTC)"

/-- Calendar string of a whole-second count since 1601-01-01T00:00:00Z,
rendered as the source's `strftime('%Y-%m-%d %H:%M:%S (UTC)')`. -/
def formatSecs1601 (s : Nat) : String :=
  let days := s / 86400
  let rem := s % 86400
  let yd := chunkLoop daysInYear 8400 1601 days
  let md := chunkLoop (monthLen (isLeap yd.1)) 12 1 yd.2
  dateString yd.1 md.1 (md.2 + 1) (rem / 3600) (rem % 3600 / 60) (rem % 60)

/-- Microseconds since 1601 of a FILETIME tick count, rounded to the
nearest microsecond with ties to even — the rounding
`datetime.utcfromtimestamp` applies to its fractional seconds. -/
def roundTicksToMicros (t : Nat) : Nat :=
  t / 10 + (if 5 < t % 10 ∨ (t % 10 = 5 ∧ t / 10 % 2 = 1) then 1 else 0)

/-- Last representable second (9999-12-31 23:59:59) counted from 1601. -/
def maxSecs1601 : Nat := 265046774399

/-- Embedding of `convert_filetime`: subtract the 1601→1970 offset, divide
by 10^7 and format — realised equivalently as microseconds since 1601
(the offset is a whole number of seconds), truncated to whole seconds by
the `%S` rendering.  Out of `datetime` range raises, modelled as
`Except.error`. -/
def convert_filetime (ft : Nat) : Except Unit String :=
  let us := roundTicksToMicros ft
  let secs := us / 1000000
  if secs ≤ maxSecs1601 then .ok (formatSecs1601 secs) else .error ()

/-- One cell of a decoded record, mirroring the heterogeneous Python list
`[run_count, focus_count, focus_time, last_executed]`: counters are
integers (the minus-5 adjustment can go negative), everything else —
including the empty string standing for an absent value — is text. -/
inductive Cell where
  | num (n : Int)
  | str (s : String)
  deriving DecidableEq

/-- Little-endian 32-bit word at byte offset `i`, as
`struct.unpack("<I", data[i:i+4])[0]` reads it. -/
def le32At (d : List Nat) (i : Nat) : Nat :=
  d.getD i 0 + 256 * d.getD (i + 1) 0 + 65536 * d.getD (i + 2) 0 + 16777216 * d.getD (i + 3) 0

/-- Little-endian 64-bit word at byte offset `i`, as
`struct.unpack("<Q", data[i:i+8])[0]` reads it. -/
def le64At (d : List Nat) (i : Nat) : Nat :=
  le32At d i + 4294967296 * le32At d (i + 4)

/-- Python's `str(timedelta(milliseconds=ms)).split('.')[0]`: total whole
seconds are split into days and an in-day remainder; the day count is
printed with a `" day, "` / `" days, "` prefix when nonzero, the rest as
`H:MM:SS` with an unpadded hour; `split('.')` discards the fractional
microsecond suffix. -/
def formatTimedeltaMs (ms : Nat) : String :=
  let s := ms / 1000
  let days := s / 86400
  let rem := s % 86400
  let core := toString (rem / 3600) ++ ":" ++ pad2 (rem % 3600 / 60) ++ ":" ++ pad2 (rem % 60)
  if days = 0 then core
  else if days = 1 then "1 day, " ++ core
  else toString days ++ " days, " ++ core

/-- Modelled from the spec: the `H:MM:SS` focus-time format the spec
prescribes for the 72-byte layout — milliseconds truncated to whole
seconds, hours unbounded and unpadded, minutes and seconds two-digit. -/
def specFocusTimeHMMSS (ms : Nat) : String :=
  let s := ms / 1000
  toString (s / 3600) ++ ":" ++ pad2 (s % 3600 / 60) ++ ":" ++ pad2 (s % 60)

/-- Embedding of `raw_data_parser`: dispatch on the payload length.
A 16-byte (WinXP) payload yields `u32@4 - 5`, two empty strings and the
converted FILETIME `u64@8` (empty when zero); a 72-byte (Win7+) payload
yields `u32@4`, `u32@8`, the formatted millisecond duration `u32@12` and
the converted FILETIME `u64@60` (empty when zero); any other length the
empty list.  An out-of-range FILETIME makes `convert_filetime` raise,
which propagates (there is no handler in the source). -/
def raw_data_parse (data : List Nat) : Except Unit (List Cell) :=
  if data.length = 16 then
    match (if le64At data 8 = 0 then Except.ok "" else convert_filetime (le64At data 8)) with
    | .error e => .error e
    | .ok last_executed =>
        .ok [Cell.num ((le32At data 4 : Int) - 5), Cell.str "", Cell.str "", Cell.str last_executed]
  else if data.length = 72 then
    match (if le64At data 60 = 0 then Except.ok "" else convert_filetime (le64At data 60)) with
    | .error e => .error e
    | .ok last_executed =>
        .ok [Cell.num (le32At data 4), Cell.num (le32At data 8),
          Cell.str (formatTimedeltaMs (le32At data 12)), Cell.str last_executed]
  else .ok []

/-- ROT13 on one character: letters are shifted 13 places within their
case, everything else is unchanged (`codecs.encode(·, 'rot-13')`). -/
def rot13Char (c : Char) : Char :=
  if 97 ≤ c.toNat ∧ c.toNat ≤ 122 then Char.ofNat (97 + (c.toNat - 97 + 13) % 26)
  else if 65 ≤ c.toNat ∧ c.toNat ≤ 90 then Char.ofNat (65 + (c.toNat - 65 + 13) % 26)
  else c

/-- ROT13 de-obfuscation of a value name. -/
def rot13 (s : String) : String := ⟨s.data.map rot13Char⟩

/-- First path segment: `program.split('\\')[0]`, i.e. the characters
before the first backslash (the whole string when there is none). -/
def firstSeg (p : String) : String := ⟨p.data.takeWhile (fun c => c ≠ Char.ofNat 92)⟩

/-- Fuel-bounded engine of Python's `str.replace` for a nonempty pattern:
scan left to right, replacing every (non-overlapping) occurrence of `k`
by `v`.  One unit of fuel is spent per consumed character, so fuel equal
to the length of the scanned list always suffices. -/
def replaceAllF (k v : List Char) : Nat → List Char → List Char
  | 0, s => s
  | fuel + 1, s =>
    match s with
    | [] => []
    | c :: rest =>
      if k.isPrefixOf s then v ++ replaceAllF k v fuel (List.drop (k.length - 1) rest)
      else c :: replaceAllF k v fuel rest

/-- Python's `program.replace(key, val)`: every occurrence of `key` in
`program` is replaced by `val`; an empty pattern inserts `val` at every
gap, as Python does. -/
def pythonReplace (program k v : String) : String :=
  if k = "" then ⟨v.data ++ program.data.flatMap (fun c => c :: v.data)⟩
  else ⟨replaceAllF k.data v.data program.data.length program.data⟩

/-- Embedding of `resolve_guid`: walk the known-folder table in order; on
the first key equal to the first path segment, return
`program.replace(key, val)`; if no key matches, return the input. -/
def resolve_guid (table : List (String × String)) (program : String) : String :=
  match table with
  | [] => program
  | (k, v) :: rest =>
    if k = firstSeg program then pythonReplace program k v else resolve_guid rest program

/-- The full name resolution performed per value in `get_key`, line 53:
`resolve_guid(codecs.encode(value.name(), 'rot-13'))`. -/
def resolveName (table : List (String × String)) (name : String) : String :=
  resolve_guid table (rot13 name)

/-- Modelled from the spec: the static `folder_guids` known-folder table
(`lib/known_folders.py` is not among the sources).  The spec describes it
as a read-only mapping from GUID-like identifier tokens to human-readable
folder names; a representative sample is enough, since every theorem that
quantifies over tables takes the table as a parameter. -/
def folder_guids : List (String × String) :=
  [("\x7bF38BF404-1D43-42F2-9305-67DE0B28FC23\x7d", "%windir%"),
   ("\x7bD65231B0-B2F1-4857-A4CE-A8E7C6EA7D27\x7d", "%windir%\\system32"),
   ("\x7b905E63B6-C1BF-494E-B29C-65B732D3D21A\x7d", "%ProgramFiles%"),
   ("\x7b5E6C858F-0E22-4760-9AFE-EA3317B67173\x7d", "%UserProfile%")]

/-- The CSV header row written by `write_output`. -/
def headerRow : List Cell :=
  [Cell.str "Program", Cell.str "Run Count", Cell.str "Focus Count",
   Cell.str "Focus Time", Cell.str "Last Executed"]

/-- The per-value loop of `get_key` (lines 51-57): each `(name, bytes)`
pair becomes `(resolved program name, decoded fields)`; an exception from
the decoder aborts the whole traversal, exactly as the uncaught Python
exception would. -/
def processValues (table : List (String × String)) :
    List (String × List Nat) → Except Unit (List (String × List Cell))
  | [] => .ok []
  | (n, d) :: rest =>
    match raw_data_parse d with
    | .error e => .error e
    | .ok pd =>
      match processValues table rest with
      | .error e => .error e
      | .ok l => .ok ((resolveName table n, pd) :: l)

/-- Embedding of `write_output`: the produced CSV, as its list of rows.
The header is always written; a record whose field list is empty (falsy)
is skipped, any other record becomes `[program, val[0], val[1], val[2],
val[3]]`. -/
def write_output (l : List (String × List Cell)) : List (List Cell) :=
  headerRow :: l.flatMap (fun kv =>
    if kv.2 = [] then []
    else [[Cell.str kv.1, kv.2.getD 0 (Cell.str ""), kv.2.getD 1 (Cell.str ""),
      kv.2.getD 2 (Cell.str ""), kv.2.getD 3 (Cell.str "")]])

/-- Outcome of opening `SOFTWARE\\...\\Explorer\\UserAssist` inside a
valid `ntuser.dat` hive: either the key with its enumerated
`(value name, raw bytes)` pairs, or `RegistryKeyNotFoundException`. -/
inductive KeyOutcome where
  | notFound
  | found (vals : List (String × List Nat))

/-- Embedding of `get_key` on a valid ntuser.dat hive: a missing
UserAssist key is caught, reported informationally and yields the empty
`pd_list` (lines 43-44 and 58); otherwise the values are processed. -/
def get_key (table : List (String × String)) : KeyOutcome → Except Unit (List (String × List Cell))
  | .notFound => .ok []
  | .found vals => processValues table vals

/-- The `main` flow after hive validation: `get_key` then `write_output`.
The result is the content of the written `UserAssist.csv`;
`Except.error` marks an uncaught exception (a crashed run, no file
completed). -/
def mainFlow (table : List (String × String)) (o : KeyOutcome) : Except Unit (List (List Cell)) :=
  match get_key table o with
  | .error e => .error e
  | .ok l => .ok (write_output l)

/-- C1: a 16-byte payload decodes to run count `u32@[4:8] - 5`, absent
focus count and focus time (empty strings), and a last-executed equal to
the converted FILETIME `u64@[8:16]`, or absent when that integer is
zero. -/
theorem raw_data_parse_len16 (data : List Nat) (h : data.length = 16) :
    (le64At data 8 = 0 →
      raw_data_parse data =
        .ok [Cell.num ((le32At data 4 : Int) - 5), Cell.str "", Cell.str "", Cell.str ""])
    ∧ ∀ s, le64At data 8 ≠ 0 → convert_filetime (le64At data 8) = .ok s →
      raw_data_parse data =
        .ok [Cell.num ((le32At data 4 : Int) - 5), Cell.str "", Cell.str "", Cell.str s] := by
  constructor
  · intro h0
    simp [raw_data_parse, h, h0]
  · intro s hne hok
    simp [raw_data_parse, h, hne, hok]

/-- Witness for C1, the spec's own scenario: run-count field 5, zero
FILETIME. -/
theorem raw_data_parse_len16_witness :
    raw_data_parse [0, 0, 0, 0, 5, 0, 0, 0, 0, 0, 0, 0, 0, 0, 0, 0] =
      .ok [Cell.num 0, Cell.str "", Cell.str "", Cell.str ""] :=
  (raw_data_parse_len16 [0, 0, 0, 0, 5, 0, 0, 0, 0, 0, 0, 0, 0, 0, 0, 0] (by decide)).1 (by decide)

/-- C2 (amended): a 72-byte payload decodes to run count `u32@[4:8]`
(no adjustment), focus count `u32@[8:12]`, the focus time `u32@[12:16]`
milliseconds rendered as Python's `str(timedelta(...))` with the
fractional seconds dropped — which is plain `H:MM:SS` truncation exactly
when the duration is below one day — and a last-executed equal to the
converted FILETIME `u64@[60:68]`, or absent when zero. -/
theorem raw_data_parse_len72 (data : List Nat) (h : data.length = 72) :
    (le64At data 60 = 0 →
      raw_data_parse data = .ok [Cell.num (le32At data 4), Cell.num (le32At data 8),
        Cell.str (formatTimedeltaMs (le32At data 12)), Cell.str ""])
    ∧ (∀ s, le64At data 60 ≠ 0 → convert_filetime (le64At data 60) = .ok s →
      raw_data_parse data = .ok [Cell.num (le32At data 4), Cell.num (le32At data 8),
        Cell.str (formatTimedeltaMs (le32At data 12)), Cell.str s])
    ∧ (le32At data 12 < 86400000 →
      formatTimedeltaMs (le32At data 12) = specFocusTimeHMMSS (le32At data 12)) := by
  refine ⟨?_, ?_, ?_⟩
  · intro h0
    simp [raw_data_parse, h, h0]
  · intro s hne hok
    simp [raw_data_parse, h, hne, hok]
  · intro hms
    have h1 : le32At data 12 / 1000 / 86400 = 0 := by omega
    have h2 : le32At data 12 / 1000 % 86400 = le32At data 12 / 1000 := by omega
    simp [formatTimedeltaMs, specFocusTimeHMMSS, h1, h2]

/-- Witness for C2 (amended): the all-zero 72-byte payload. -/
theorem raw_data_parse_len72_witness :
    raw_data_parse (List.replicate 72 0) =
      .ok [Cell.num 0, Cell.num 0, Cell.str "0:00:00", Cell.str ""] :=
  (raw_data_parse_len72 (List.replicate 72 0) (by decide)).1 (by decide)

/-- Counterexample for C2 as stated: a focus time of 86,400,000 ms (one
day) is rendered by the code as `"1 day, 0:00:00"`, not in the `H:MM:SS`
shape (`"24:00:00"`) the claim prescribes. -/
theorem focus_time_day_counterexample :
    raw_data_parse (List.replicate 12 0 ++ [0, 92, 38, 5] ++ List.replicate 56 0) =
      .ok [Cell.num 0, Cell.num 0, Cell.str "1 day, 0:00:00", Cell.str ""]
    ∧ specFocusTimeHMMSS 86400000 = "24:00:00"
    ∧ ("1 day, 0:00:00" : String) ≠ "24:00:00" :=
  ⟨by rfl, by rfl, by decide⟩

/-- C3: a payload of unrecognised length decodes to the empty record; the
per-value loop still stores it under its resolved program name, and
`write_output` suppresses it, emitting only the header. -/
theorem unrecognized_length_suppressed (table : List (String × String)) (n : String)
    (data : List Nat) (h16 : data.length ≠ 16) (h72 : data.length ≠ 72) :
    raw_data_parse data = .ok []
    ∧ processValues table [(n, data)] = .ok [(resolveName table n, [])]
    ∧ write_output [(resolveName table n, [])] = [headerRow] := by
  have h1 : raw_data_parse data = .ok [] := by
    simp [raw_data_parse, h16, h72]
  refine ⟨h1, ?_, ?_⟩
  · simp [processValues, h1]
  · simp [write_output]

/-- Witness for C3: an 8-byte payload (the spec's scenario length is also
unrecognised; any length other than 16 and 72 behaves alike). -/
theorem unrecognized_length_suppressed_witness :
    raw_data_parse [1, 2, 3, 4, 5, 6, 7, 8] = .ok []
    ∧ processValues folder_guids [("Abc", [1, 2, 3, 4, 5, 6, 7, 8])] =
        .ok [(resolveName folder_guids "Abc", [])]
    ∧ write_output [(resolveName folder_guids "Abc", [])] = [headerRow] :=
  unrecognized_length_suppressed folder_guids "Abc" [1, 2, 3, 4, 5, 6, 7, 8]
    (by decide) (by decide)

/-- C6 (amended): an out-of-range FILETIME makes `convert_filetime`
raise; `raw_data_parser` has no handler, so the whole per-key traversal
errors out — the record is not kept with an absent last-executed field,
and processing does not continue. -/
theorem out_of_range_filetime_propagates (data : List Nat) (h : data.length = 16)
    (hft : convert_filetime (le64At data 8) = .error ()) :
    raw_data_parse data = .error ()
    ∧ ∀ table n rest, processValues table ((n, data) :: rest) = .error () := by
  have hne : le64At data 8 ≠ 0 := by
    intro h0
    rw [h0] at hft
    exact Except.noConfusion hft
  have h1 : raw_data_parse data = .error () := by
    simp [raw_data_parse, h, hne, hft]
  exact ⟨h1, fun table n rest => by simp [processValues, h1]⟩

/-- Witness for C6 (amended): FILETIME `2^64 - 2` is far beyond year
9999, so decoding errors and aborts the traversal. -/
theorem out_of_range_filetime_propagates_witness :
    raw_data_parse [1, 2, 3, 4, 9, 0, 0, 0, 254, 255, 255, 255, 255, 255, 255, 255] = .error ()
    ∧ ∀ table n rest,
        processValues table
          ((n, [1, 2, 3, 4, 9, 0, 0, 0, 254, 255, 255, 255, 255, 255, 255, 255]) :: rest) =
        .error () :=
  out_of_range_filetime_propagates _ (by decide) (by rfl)

/-- Counterexample for C6 as stated: with FILETIME `2^64 - 1` the decode
result is an error (an uncaught exception), not a record with an absent
last-executed field, and the surrounding traversal errors out instead of
continuing. -/
theorem out_of_range_filetime_aborts :
    raw_data_parse [0, 0, 0, 0, 7, 0, 0, 0, 255, 255, 255, 255, 255, 255, 255, 255] = .error ()
    ∧ processValues folder_guids
        [("Program", [0, 0, 0, 0, 7, 0, 0, 0, 255, 255, 255, 255, 255, 255, 255, 255])] =
      .error () :=
  ⟨by rfl, by rfl⟩

/-- C7 (amended): a missing UserAssist key is caught and reported, the
run completes without an exception — but `write_output` is still called
on the empty record list, so a CSV consisting of just the header row is
written. -/
theorem missing_subtree_graceful (table : List (String × String)) :
    mainFlow table KeyOutcome.notFound = .ok [headerRow] := rfl

/-- Counterexample for C7 as stated: the run with a missing subtree
completes normally and the written file content is the nonempty header
row — an output file is produced, contradicting "no CSV is written". -/
theorem missing_subtree_still_writes_csv :
    mainFlow folder_guids KeyOutcome.notFound = .ok [headerRow]
    ∧ ([headerRow] : List (List Cell)) ≠ [] :=
  ⟨rfl, by decide⟩

/-- C5 (amended): `resolve_guid` substitutes exactly when the first path
segment equals some table key; the first such entry wins, and the whole
string goes through Python's `str.replace`, which substitutes every
occurrence of the key — not only the leading segment.  A name whose first
segment matches no key is returned unchanged. -/
theorem resolve_guid_first_match (table : List (String × String)) (p : String) :
    resolve_guid table p =
      match table.find? (fun kv => kv.1 == firstSeg p) with
      | none => p
      | some kv => pythonReplace p kv.1 kv.2 := by
  induction table with
  | nil => rfl
  | cons kv rest ih =>
    rcases kv with ⟨k, v⟩
    by_cases h : k = firstSeg p
    · rw [List.find?_cons_of_pos _ (by simp [h])]
      simp [resolve_guid, h]
    · rw [List.find?_cons_of_neg _ (by simp [h])]
      simp [resolve_guid, h, ih]

/-- Counterexample for C5 as stated: when the matched key occurs again
later in the string, that second occurrence is substituted too; the
claim's leading-segment-only result differs from what the code
produces. -/
theorem resolve_guid_replaces_all_occurrences :
    resolve_guid folder_guids
        "\x7bF38BF404-1D43-42F2-9305-67DE0B28FC23\x7d\\Tools\\\x7bF38BF404-1D43-42F2-9305-67DE0B28FC23\x7d\\app.exe"
      = "%windir%\\Tools\\%windir%\\app.exe"
    ∧ ("%windir%\\Tools\\%windir%\\app.exe" : String) ≠
        "%windir%\\Tools\\\x7bF38BF404-1D43-42F2-9305-67DE0B28FC23\x7d\\app.exe" :=
  ⟨by rfl, by decide⟩

/-- A name whose first segment equals no table key passes through
`resolve_guid` unchanged. -/
theorem resolve_guid_of_no_match (table : List (String × String)) (p : String)
    (h : ∀ kv, kv ∈ table → kv.1 ≠ firstSeg p) : resolve_guid table p = p := by
  induction table with
  | nil => rfl
  | cons kv rest ih =>
    rcases kv with ⟨k, v⟩
    have hk : k ≠ firstSeg p := h (k, v) (List.mem_cons_self _ _)
    rw [resolve_guid, if_neg hk]
    exact ih fun kv hkv => h kv (List.mem_cons_of_mem _ hkv)

/-- C9 (amended): the substitution step `resolve_guid` is idempotent on
paths whose first segment matches no table key — re-resolving returns
the same string.  (The full per-name resolution is not the identity on
such paths, because it first applies ROT13; see the counterexample.) -/
theorem resolve_guid_idempotent (table : List (String × String)) (p : String)
    (h : ∀ kv, kv ∈ table → kv.1 ≠ firstSeg p) :
    resolve_guid table (resolve_guid table p) = resolve_guid table p := by
  rw [resolve_guid_of_no_match table p h, resolve_guid_of_no_match table p h]

/-- Witness for C9 (amended): a plain path with an unmatched first
segment. -/
theorem resolve_guid_idempotent_witness :
    resolve_guid folder_guids (resolve_guid folder_guids "C:\\Tools") =
      resolve_guid folder_guids "C:\\Tools" :=
  resolve_guid_idempotent folder_guids "C:\\Tools" (by decide)

/-- Counterexample for C9 as stated: the name resolution applied per value
(ROT13 followed by `resolve_guid`) maps the plain identifier-free path
`C:\Tools` to `P:\Gbbyf`, not to itself. -/
theorem resolve_full_name_not_identity :
    resolveName folder_guids "C:\\Tools" = "P:\\Gbbyf"
    ∧ ("P:\\Gbbyf" : String) ≠ "C:\\Tools" :=
  ⟨by rfl, by decide⟩

/-- Byte-wise congruence for `le32At`. -/
theorem le32At_congr (d1 d2 : List Nat) (i : Nat)
    (h0 : d1.getD i 0 = d2.getD i 0) (h1 : d1.getD (i + 1) 0 = d2.getD (i + 1) 0)
    (h2 : d1.getD (i + 2) 0 = d2.getD (i + 2) 0) (h3 : d1.getD (i + 3) 0 = d2.getD (i + 3) 0) :
    le32At d1 i = le32At d2 i := by
  simp only [le32At, h0, h1, h2, h3]

/-- C10: the decode result depends only on the documented byte windows —
two equal-length payloads agreeing on bytes 4..15 and (for the 72-byte
layout) 60..67 decode identically; bytes 0..3, 16..59 and 68..71 never
influence any output field. -/
theorem raw_data_parse_window (d1 d2 : List Nat) (hlen : d1.length = d2.length)
    (hA : ∀ i, i < 12 → d1.getD (4 + i) 0 = d2.getD (4 + i) 0)
    (hB : ∀ i, i < 8 → d1.getD (60 + i) 0 = d2.getD (60 + i) 0) :
    raw_data_parse d1 = raw_data_parse d2 := by
  have key : ∀ j, 4 ≤ j → j < 16 → d1.getD j 0 = d2.getD j 0 := by
    intro j hj1 hj2
    have h := hA (j - 4) (by omega)
    rwa [Nat.add_sub_cancel' hj1] at h
  have key2 : ∀ j, 60 ≤ j → j < 68 → d1.getD j 0 = d2.getD j 0 := by
    intro j hj1 hj2
    have h := hB (j - 60) (by omega)
    rwa [Nat.add_sub_cancel' hj1] at h
  have e4 : le32At d1 4 = le32At d2 4 :=
    le32At_congr d1 d2 4 (key 4 (by omega) (by omega)) (key (4 + 1) (by omega) (by omega))
      (key (4 + 2) (by omega) (by omega)) (key (4 + 3) (by omega) (by omega))
  have e8 : le32At d1 8 = le32At d2 8 :=
    le32At_congr d1 d2 8 (key 8 (by omega) (by omega)) (key (8 + 1) (by omega) (by omega))
      (key (8 + 2) (by omega) (by omega)) (key (8 + 3) (by omega) (by omega))
  have e12 : le32At d1 12 = le32At d2 12 :=
    le32At_congr d1 d2 12 (key 12 (by omega) (by omega)) (key (12 + 1) (by omega) (by omega))
      (key (12 + 2) (by omega) (by omega)) (key (12 + 3) (by omega) (by omega))
  have e64 : le64At d1 8 = le64At d2 8 := by
    simp only [le64At, e8, e12]
  have e60 : le32At d1 60 = le32At d2 60 :=
    le32At_congr d1 d2 60 (key2 60 (by omega) (by omega)) (key2 (60 + 1) (by omega) (by omega))
      (key2 (60 + 2) (by omega) (by omega)) (key2 (60 + 3) (by omega) (by omega))
  have e64b : le32At d1 (60 + 4) = le32At d2 (60 + 4) :=
    le32At_congr d1 d2 (60 + 4) (key2 (60 + 4) (by omega) (by omega))
      (key2 (60 + 4 + 1) (by omega) (by omega)) (key2 (60 + 4 + 2) (by omega) (by omega))
      (key2 (60 + 4 + 3) (by omega) (by omega))
  have e6460 : le64At d1 60 = le64At d2 60 := by
    simp only [le64At, e60, e64b]
  by_cases h16 : d2.length = 16
  · simp [raw_data_parse, hlen, h16, e4, e64]
  · by_cases h72 : d2.length = 72
    · simp [raw_data_parse, hlen, h16, h72, e4, e8, e12, e6460]
    · simp [raw_data_parse, hlen, h16, h72]

/-- Witness for C10: two 16-byte payloads differing only in the unread
leading four bytes decode identically. -/
theorem raw_data_parse_window_witness :
    raw_data_parse (List.replicate 16 0) = raw_data_parse ([9, 9, 9, 9] ++ List.replicate 12 0) :=
  raw_data_parse_window (List.replicate 16 0) ([9, 9, 9, 9] ++ List.replicate 12 0)
    (by decide) (by decide) (by decide)

/-- Code point of a digit character. -/
theorem digitChar_toNat (d : Nat) : (digitChar d).toNat = 48 + d % 10 := by
  have key : ∀ m, m < 10 → (Char.ofNat (48 + m)).toNat = 48 + m := by decide
  unfold digitChar
  exact key (d % 10) (Nat.mod_lt _ (by omega))

/-- Digit characters compare like the digits they render. -/
theorem digitChar_lt {a b : Nat} (h : a % 10 < b % 10) : digitChar a < digitChar b := by
  show (digitChar a).toNat < (digitChar b).toNat
  have ha := digitChar_toNat a
  have hb := digitChar_toNat b
  omega

/-- Digit characters agree when the digits agree. -/
theorem digitChar_congr {a b : Nat} (h : a % 10 = b % 10) : digitChar a = digitChar b := by
  unfold digitChar
  rw [h]

/-- The character list behind a formatted timestamp, fully unfolded. -/
theorem dateString_data (y mo d h mi s : Nat) :
    (dateString y mo d h mi s).data =
      [digitChar (y / 1000), digitChar (y / 100), digitChar (y / 10), digitChar y, '-',
       digitChar (mo / 10), digitChar mo, '-', digitChar (d / 10), digitChar d, ' ',
       digitChar (h / 10), digitChar h, ':', digitChar (mi / 10), digitChar mi, ':',
       digitChar (s / 10), digitChar s, ' ', '(', 'U', 'T', 'C', ')'] := rfl

/-- Lexicographic step on a two-digit zero-padded block: smaller value,
smaller block, whatever follows. -/
theorem lex_pad2 {a b : Nat} (h : a < b) (hb : b ≤ 99) (r1 r2 : List Char) :
    List.Lex (· < ·) (digitChar (a / 10) :: digitChar a :: r1)
      (digitChar (b / 10) :: digitChar b :: r2) := by
  rcases (by omega :
      a / 10 % 10 < b / 10 % 10 ∨ (a / 10 % 10 = b / 10 % 10 ∧ a % 10 < b % 10)) with
    h1 | ⟨h1, h2⟩
  · exact List.Lex.rel (digitChar_lt h1)
  · rw [digitChar_congr h1]
    exact List.Lex.cons (List.Lex.rel (digitChar_lt h2))

/-- Lexicographic step on a four-digit zero-padded block. -/
theorem lex_pad4 {a b : Nat} (h : a < b) (hb : b ≤ 9999) (r1 r2 : List Char) :
    List.Lex (· < ·)
      (digitChar (a / 1000) :: digitChar (a / 100) :: digitChar (a / 10) :: digitChar a :: r1)
      (digitChar (b / 1000) :: digitChar (b / 100) :: digitChar (b / 10) :: digitChar b :: r2) := by
  have e1 : a / 1000 % 10 = a / 1000 := by omega
  have e2 : b / 1000 % 10 = b / 1000 := by omega
  rcases (by rw [e1, e2]; omega :
      a / 1000 % 10 < b / 1000 % 10
      ∨ (a / 1000 % 10 = b / 1000 % 10 ∧ (a / 100 % 10 < b / 100 % 10
        ∨ (a / 100 % 10 = b / 100 % 10 ∧ (a / 10 % 10 < b / 10 % 10
          ∨ (a / 10 % 10 = b / 10 % 10 ∧ a % 10 < b % 10)))))) with
    h1 | ⟨h1, h2 | ⟨h2, h3 | ⟨h3, h4⟩⟩⟩
  · exact List.Lex.rel (digitChar_lt h1)
  · rw [digitChar_congr h1]
    exact List.Lex.cons (List.Lex.rel (digitChar_lt h2))
  · rw [digitChar_congr h1, digitChar_congr h2]
    exact List.Lex.cons (List.Lex.cons (List.Lex.rel (digitChar_lt h3)))
  · rw [digitChar_congr h1, digitChar_congr h2, digitChar_congr h3]
    exact List.Lex.cons (List.Lex.cons (List.Lex.cons (List.Lex.rel (digitChar_lt h4))))

/-- Strings in the fixed timestamp layout compare lexicographically like
the tuple (year, month, day, hour, minute, second), provided every field
fits its column width. -/
theorem dateString_lt {y1 mo1 d1 h1 mi1 s1 y2 mo2 d2 h2 mi2 s2 : Nat}
    (hy : y2 ≤ 9999) (hmo : mo2 ≤ 99) (hd : d2 ≤ 99) (hh : h2 ≤ 99) (hmi : mi2 ≤ 99)
    (hs : s2 ≤ 99)
    (hlex : y1 < y2 ∨ (y1 = y2 ∧ (mo1 < mo2 ∨ (mo1 = mo2 ∧ (d1 < d2 ∨ (d1 = d2 ∧
      (h1 < h2 ∨ (h1 = h2 ∧ (mi1 < mi2 ∨ (mi1 = mi2 ∧ s1 < s2)))))))))) :
    dateString y1 mo1 d1 h1 mi1 s1 < dateString y2 mo2 d2 h2 mi2 s2 := by
  apply String.lt_iff_toList_lt.2
  show List.Lex (· < ·) (dateString y1 mo1 d1 h1 mi1 s1).data (dateString y2 mo2 d2 h2 mi2 s2).data
  rw [dateString_data, dateString_data]
  rcases hlex with hy1 | ⟨rfl, hmo1 | ⟨rfl, hd1 | ⟨rfl, hh1 | ⟨rfl, hmi1 | ⟨rfl, hs1⟩⟩⟩⟩⟩
  · exact lex_pad4 hy1 hy _ _
  · repeat apply List.Lex.cons
    exact lex_pad2 hmo1 hmo _ _
  · repeat apply List.Lex.cons
    exact lex_pad2 hd1 hd _ _
  · repeat apply List.Lex.cons
    exact lex_pad2 hh1 hh _ _
  · repeat apply List.Lex.cons
    exact lex_pad2 hmi1 hmi _ _
  · repeat apply List.Lex.cons
    exact lex_pad2 hs1 hs _ _

/-- Splitting a `sumLen` range. -/
theorem sumLen_add (len : Nat → Nat) (m : Nat) :
    ∀ i n, sumLen len i (m + n) = sumLen len i m + sumLen len (i + m) n := by
  induction m with
  | zero => intro i n; simp [sumLen]
  | succ k ih =>
    intro i n
    have h1 : k + 1 + n = (k + n) + 1 := by omega
    rw [h1]
    simp only [sumLen]
    rw [ih]
    have h2 : i + 1 + k = i + (k + 1) := by omega
    rw [h2]
    omega

/-- The Gregorian leap rule has period 400. -/
theorem daysInYear_periodic (y : Nat) : daysInYear (y + 400) = daysInYear y := by
  unfold daysInYear isLeap
  have h : ((y + 400) % 4 = 0 ∧ ((y + 400) % 100 ≠ 0 ∨ (y + 400) % 400 = 0))
      ↔ (y % 4 = 0 ∧ (y % 100 ≠ 0 ∨ y % 400 = 0)) := by omega
  simp only [h]

/-- Any 400 consecutive Gregorian years hold 146097 days. -/
theorem sumLen_400 (y : Nat) : sumLen daysInYear y 400 = 146097 := by
  induction y with
  | zero => decide
  | succ n ih =>
    have ha : sumLen daysInYear n (400 + 1) = sumLen daysInYear n 400 + daysInYear (n + 400) := by
      rw [sumLen_add daysInYear 400 n 1]
      simp [sumLen]
    have hb : sumLen daysInYear n (1 + 400) = daysInYear n + sumLen daysInYear (n + 1) 400 := by
      rw [sumLen_add daysInYear 1 n 400]
      simp [sumLen]
    have hc : (400 : Nat) + 1 = 1 + 400 := by omega
    rw [hc] at ha
    rw [ha] at hb
    rw [daysInYear_periodic] at hb
    omega

/-- Multiples of the 400-year cycle. -/
theorem sumLen_mul400 (k : Nat) : ∀ y, sumLen daysInYear y (400 * k) = 146097 * k := by
  induction k with
  | zero => intro y; simp [sumLen]
  | succ m ih =>
    intro y
    have h1 : 400 * (m + 1) = 400 + 400 * m := by omega
    rw [h1, sumLen_add daysInYear 400 y (400 * m), sumLen_400, ih]
    omega

/-- Total length of the years 1601 to 9999. -/
theorem sumYears : sumLen daysInYear 1601 8399 = 3067671 := by
  have h1 : (8399 : Nat) = 400 * 20 + 399 := by omega
  rw [h1, sumLen_add daysInYear (400 * 20) 1601 399, sumLen_mul400]
  have h2 : 1601 + 400 * 20 = 9601 := by omega
  rw [h2]
  have h3 : sumLen daysInYear 9601 399 = 145731 := by decide
  omega

/-- The twelve month lengths sum to the year length. -/
theorem sumMonths (b : Bool) : sumLen (monthLen b) 1 12 = if b then 366 else 365 := by
  cases b <;> decide

/-- No month is longer than 31 days. -/
theorem monthLen_le (b : Bool) (m : Nat) : monthLen b m ≤ 31 := by
  unfold monthLen
  split
  · split <;> omega
  · split <;> omega

/-- The chunk index never decreases. -/
theorem chunkLoop_fst_ge (len : Nat → Nat) (fuel : Nat) :
    ∀ i d, i ≤ (chunkLoop len fuel i d).1 := by
  induction fuel with
  | zero => intro i d; exact Nat.le_refl i
  | succ f ih =>
    intro i d
    simp only [chunkLoop]
    split
    · exact Nat.le_refl i
    · exact Nat.le_trans (Nat.le_succ i) (ih (i + 1) (d - len i))

/-- The chunk decomposition is strictly monotone in the consumed amount,
lexicographically on (index, remainder). -/
theorem chunkLoop_mono (len : Nat → Nat) (fuel : Nat) :
    ∀ i d1 d2, d1 < d2 →
      (chunkLoop len fuel i d1).1 < (chunkLoop len fuel i d2).1
      ∨ ((chunkLoop len fuel i d1).1 = (chunkLoop len fuel i d2).1
         ∧ (chunkLoop len fuel i d1).2 < (chunkLoop len fuel i d2).2) := by
  induction fuel with
  | zero => intro i d1 d2 h; exact Or.inr ⟨rfl, h⟩
  | succ f ih =>
    intro i d1 d2 h
    simp only [chunkLoop]
    by_cases h1 : d1 < len i
    · by_cases h2 : d2 < len i
      · rw [if_pos h1, if_pos h2]
        exact Or.inr ⟨rfl, h⟩
      · rw [if_pos h1, if_neg h2]
        exact Or.inl (Nat.lt_of_lt_of_le (Nat.lt_succ_self i)
          (chunkLoop_fst_ge len f (i + 1) (d2 - len i)))
    · have h2 : ¬ d2 < len i := by omega
      rw [if_neg h1, if_neg h2]
      exact ih (i + 1) (d1 - len i) (d2 - len i) (by omega)

/-- With enough fuel and a consumed amount below the range total, the
final index stays below the end of the range. -/
theorem chunkLoop_fst_lt (len : Nat → Nat) {n : Nat} :
    ∀ {fuel i d : Nat}, n ≤ fuel → d < sumLen len i n → (chunkLoop len fuel i d).1 < i + n := by
  induction n with
  | zero =>
    intro fuel i d _ hd
    simp [sumLen] at hd
  | succ m ih =>
    intro fuel i d hn hd
    obtain ⟨f, rfl⟩ : ∃ f, fuel = f + 1 := ⟨fuel - 1, by omega⟩
    simp only [sumLen] at hd
    simp only [chunkLoop]
    split
    · show i < i + (m + 1)
      omega
    · have h2 := @ih f (i + 1) (d - len i) (by omega) (by omega)
      omega

/-- With enough fuel and a consumed amount below the range total, the
final remainder is below the length of the final chunk. -/
theorem chunkLoop_snd_lt (len : Nat → Nat) {n : Nat} :
    ∀ {fuel i d : Nat}, n ≤ fuel → d < sumLen len i n →
      (chunkLoop len fuel i d).2 < len (chunkLoop len fuel i d).1 := by
  induction n with
  | zero =>
    intro fuel i d _ hd
    simp [sumLen] at hd
  | succ m ih =>
    intro fuel i d hn hd
    obtain ⟨f, rfl⟩ : ∃ f, fuel = f + 1 := ⟨fuel - 1, by omega⟩
    simp only [sumLen] at hd
    simp only [chunkLoop]
    split
    · rename_i hlt
      exact hlt
    · exact @ih f (i + 1) (d - len i) (by omega) (by omega)

/-- Core monotonicity: a later (day count, in-day remainder) pair renders
a lexicographically larger timestamp string, for inputs inside the
supported calendar range. -/
theorem formatDays_lt {D1 D2 R1 R2 : Nat}
    (hcase : D1 < D2 ∨ (D1 = D2 ∧ R1 < R2))
    (hD2 : D2 < sumLen daysInYear 1601 8399) (hR2 : R2 < 86400) :
    dateString (chunkLoop daysInYear 8400 1601 D1).1
      (chunkLoop (monthLen (isLeap (chunkLoop daysInYear 8400 1601 D1).1)) 12 1
        (chunkLoop daysInYear 8400 1601 D1).2).1
      ((chunkLoop (monthLen (isLeap (chunkLoop daysInYear 8400 1601 D1).1)) 12 1
        (chunkLoop daysInYear 8400 1601 D1).2).2 + 1)
      (R1 / 3600) (R1 % 3600 / 60) (R1 % 60)
    < dateString (chunkLoop daysInYear 8400 1601 D2).1
      (chunkLoop (monthLen (isLeap (chunkLoop daysInYear 8400 1601 D2).1)) 12 1
        (chunkLoop daysInYear 8400 1601 D2).2).1
      ((chunkLoop (monthLen (isLeap (chunkLoop daysInYear 8400 1601 D2).1)) 12 1
        (chunkLoop daysInYear 8400 1601 D2).2).2 + 1)
      (R2 / 3600) (R2 % 3600 / 60) (R2 % 60) := by
  set Y1 := (chunkLoop daysInYear 8400 1601 D1).1 with hY1
  set DOY1 := (chunkLoop daysInYear 8400 1601 D1).2 with hB1
  set Y2 := (chunkLoop daysInYear 8400 1601 D2).1 with hY2
  set DOY2 := (chunkLoop daysInYear 8400 1601 D2).2 with hB2
  set M1 := (chunkLoop (monthLen (isLeap Y1)) 12 1 DOY1).1 with hM1
  set e1 := (chunkLoop (monthLen (isLeap Y1)) 12 1 DOY1).2 with hE1
  set M2 := (chunkLoop (monthLen (isLeap Y2)) 12 1 DOY2).1 with hM2
  set e2 := (chunkLoop (monthLen (isLeap Y2)) 12 1 DOY2).2 with hE2
  have hY2lt : Y2 < 1601 + 8399 := by
    rw [hY2]
    exact chunkLoop_fst_lt daysInYear (by omega) hD2
  have hDOY2lt : DOY2 < daysInYear Y2 := by
    rw [hB2, hY2]
    exact chunkLoop_snd_lt daysInYear (by omega) hD2
  have hMonSum2 : sumLen (monthLen (isLeap Y2)) 1 12 = daysInYear Y2 := by
    rw [sumMonths]
    rfl
  have hDOY2sum : DOY2 < sumLen (monthLen (isLeap Y2)) 1 12 := by
    rw [hMonSum2]
    exact hDOY2lt
  have hM2lt : M2 < 1 + 12 := by
    rw [hM2]
    exact chunkLoop_fst_lt (monthLen (isLeap Y2)) (by omega) hDOY2sum
  have hE2lt : e2 < monthLen (isLeap Y2) M2 := by
    rw [hE2, hM2]
    exact chunkLoop_snd_lt (monthLen (isLeap Y2)) (by omega) hDOY2sum
  have hmlen := monthLen_le (isLeap Y2) M2
  have hy99 : Y2 ≤ 9999 := by omega
  have hM99 : M2 ≤ 99 := by omega
  have he99 : e2 + 1 ≤ 99 := by omega
  have hhour : R2 / 3600 ≤ 99 := by omega
  have hmin : R2 % 3600 / 60 ≤ 99 := by omega
  have hsec : R2 % 60 ≤ 99 := by omega
  rcases hcase with hDlt | ⟨rfl, hRlt⟩
  · rcases chunkLoop_mono daysInYear 8400 1601 D1 D2 hDlt with hYlt | ⟨hYeq, hdoylt⟩
    · rw [← hY1, ← hY2] at hYlt
      exact dateString_lt hy99 hM99 he99 hhour hmin hsec (Or.inl hYlt)
    · rw [← hY1, ← hY2] at hYeq
      rw [← hB1, ← hB2] at hdoylt
      have hM1' : M1 = (chunkLoop (monthLen (isLeap Y2)) 12 1 DOY1).1 := by
        rw [hM1, hYeq]
      have hE1' : e1 = (chunkLoop (monthLen (isLeap Y2)) 12 1 DOY1).2 := by
        rw [hE1, hYeq]
      rcases chunkLoop_mono (monthLen (isLeap Y2)) 12 1 DOY1 DOY2 hdoylt with hMlt | ⟨hMeq, helt⟩
      · have hMM : M1 < M2 := by
          rw [hM1', hM2]
          exact hMlt
        exact dateString_lt hy99 hM99 he99 hhour hmin hsec (Or.inr ⟨hYeq, Or.inl hMM⟩)
      · have hMM : M1 = M2 := by
          rw [hM1', hM2]
          exact hMeq
        have hee : e1 < e2 := by
          rw [hE1', hE2]
          exact helt
        exact dateString_lt hy99 hM99 he99 hhour hmin hsec
          (Or.inr ⟨hYeq, Or.inr ⟨hMM, Or.inl (by omega)⟩⟩)
  · have hYY : Y1 = Y2 := by rw [hY1, hY2]
    have hBB : DOY1 = DOY2 := by rw [hB1, hB2]
    have hMM : M1 = M2 := by rw [hM1, hM2, hYY, hBB]
    have hee : e1 = e2 := by rw [hE1, hE2, hYY, hBB]
    have htime : R1 / 3600 < R2 / 3600
        ∨ (R1 / 3600 = R2 / 3600 ∧ (R1 % 3600 / 60 < R2 % 3600 / 60
          ∨ (R1 % 3600 / 60 = R2 % 3600 / 60 ∧ R1 % 60 < R2 % 60))) := by omega
    exact dateString_lt hy99 hM99 he99 hhour hmin hsec
      (Or.inr ⟨hYY, Or.inr ⟨hMM, Or.inr ⟨by omega, htime⟩⟩⟩)

/-- Strict monotonicity of the calendar rendering on in-range second
counts. -/
theorem formatSecs1601_strict_mono {s1 s2 : Nat} (h : s1 < s2) (hb : s2 ≤ maxSecs1601) :
    formatSecs1601 s1 < formatSecs1601 s2 := by
  have hb' : s2 ≤ 265046774399 := hb
  have hsum := sumYears
  exact @formatDays_lt (s1 / 86400) (s2 / 86400) (s1 % 86400) (s2 % 86400)
    (by omega) (by omega) (by omega)

/-- Rounding ticks to microseconds is monotone. -/
theorem roundTicksToMicros_mono {t1 t2 : Nat} (h : t1 ≤ t2) :
    roundTicksToMicros t1 ≤ roundTicksToMicros t2 := by
  unfold roundTicksToMicros
  split <;> split <;> omega

/-- C8 (amended): `convert_filetime` is weakly monotone — of two
successfully converted tick counts, the smaller yields a string that is
equal to (when both fall in the same whole second) or lexicographically
below the larger one; distinct displayed seconds give strictly ordered
strings. -/
theorem convert_filetime_monotone (ft1 ft2 : Nat) (s1 s2 : String) (hlt : ft1 < ft2)
    (h1 : convert_filetime ft1 = .ok s1) (h2 : convert_filetime ft2 = .ok s2) :
    s1 = s2 ∨ s1 < s2 := by
  simp only [convert_filetime] at h1 h2
  by_cases c1 : roundTicksToMicros ft1 / 1000000 ≤ maxSecs1601
  case neg =>
    rw [if_neg c1] at h1
    exact absurd h1 (by simp)
  rw [if_pos c1] at h1
  by_cases c2 : roundTicksToMicros ft2 / 1000000 ≤ maxSecs1601
  case neg =>
    rw [if_neg c2] at h2
    exact absurd h2 (by simp)
  rw [if_pos c2] at h2
  simp only [Except.ok.injEq] at h1 h2
  have hdiv : roundTicksToMicros ft1 / 1000000 ≤ roundTicksToMicros ft2 / 1000000 :=
    Nat.div_le_div_right (roundTicksToMicros_mono (Nat.le_of_lt hlt))
  rcases Nat.lt_or_ge (roundTicksToMicros ft1 / 1000000) (roundTicksToMicros ft2 / 1000000) with
    hl | hg
  · right
    rw [← h1, ← h2]
    exact formatSecs1601_strict_mono hl c2
  · left
    rw [← h1, ← h2]
    have he : roundTicksToMicros ft1 / 1000000 = roundTicksToMicros ft2 / 1000000 :=
      Nat.le_antisymm hdiv hg
    rw [he]

/-- Witness for C8 (amended): the epoch and one second later. -/
theorem convert_filetime_monotone_witness :
    ("1970-01-01 00:00:00 (UTC)" : String) = "1970-01-01 00:00:01 (UTC)"
    ∨ ("1970-01-01 00:00:00 (UTC)" : String) < "1970-01-01 00:00:01 (UTC)" :=
  convert_filetime_monotone 116444736000000000 116444736010000000
    "1970-01-01 00:00:00 (UTC)" "1970-01-01 00:00:01 (UTC)" (by omega) (by rfl) (by rfl)

/-- Counterexample for C8 as stated: two distinct tick counts inside the
same whole second produce the identical string, which is not
lexicographically below itself — the strings do not order strictly for
every `ft1 < ft2`. -/
theorem convert_filetime_equal_strings :
    convert_filetime 116444736000000000 = .ok "1970-01-01 00:00:00 (UTC)"
    ∧ convert_filetime 116444736000000001 = .ok "1970-01-01 00:00:00 (UTC)"
    ∧ ¬ (("1970-01-01 00:00:00 (UTC)" : String) < "1970-01-01 00:00:00 (UTC)") :=
  ⟨by rfl, by rfl, by exact lt_irrefl _⟩

/-- C4 (amended): whenever the tick remainder within its second is more
than half a microsecond below the next second (remainder at most
9,999,994 of the 10,000,000 ticks), `convert_filetime` returns exactly
the calendar string of the truncated whole-second quotient, as the claim
describes; at remainders within half a microsecond of the next second the
microsecond rounding of the conversion bumps the displayed second up
instead (see the counterexample).  The quotient `ft / 10^7` equals the
claim's `(ft - 116444736000000000) / 10^7` shifted by the whole-second
epoch offset, which the formatter accounts for. -/
theorem convert_filetime_truncates (ft : Nat) (hr : ft % 10000000 < 9999995)
    (hb : ft / 10000000 ≤ 265046774399) :
    convert_filetime ft = .ok (formatSecs1601 (ft / 10000000)) := by
  have key : roundTicksToMicros ft / 1000000 = ft / 10000000 := by
    unfold roundTicksToMicros
    split <;> omega
  simp only [convert_filetime, key]
  rw [if_pos (show ft / 10000000 ≤ maxSecs1601 from hb)]

/-- Witness for C4 (amended), the spec's own scenario: the exact epoch
offset maps to the Unix epoch string. -/
theorem convert_filetime_truncates_witness :
    convert_filetime 116444736000000000 = .ok "1970-01-01 00:00:00 (UTC)" := by
  have h := convert_filetime_truncates 116444736000000000 (by decide) (by decide)
  rw [h]
  rfl

/-- Counterexample for C4 as stated: at `ft` = epoch + 9,999,999 ticks the
truncated whole-second value is the epoch second itself, yet the code
(which rounds the fractional part to the nearest microsecond before
dropping it) reports the next second. -/
theorem convert_filetime_rounds_up :
    convert_filetime 116444736009999999 = .ok "1970-01-01 00:00:01 (UTC)"
    ∧ (116444736009999999 - 116444736000000000) / 10000000 = 0
    ∧ ("1970-01-01 00:00:01 (UTC)" : String) ≠ "1970-01-01 00:00:00 (UTC)" :=
  ⟨by rfl, by rfl, by decide⟩
